import Mathlib

/-!
Verification of the log-processing pipeline in
`dataflow/log_processing_pipeline.py` (Google-Observability repository).

The pipeline reads opaque Pub/Sub messages, parses them as JSON
(`ParseLogEntry.process`), enriches each record (`EnrichLogs.process`),
windows them into fixed 60-second intervals, assigns each record to one of
four BigQuery shard tables (`DetermineShardTable.process`) and appends each
shard's batch to its table via four static filter/write branches
(`run_pipeline`).

We embed the Python shallowly: JSON values are an inductive type, Python
dictionaries are association lists, a Python expression that may raise is a
`Except Unit` computation (the `Unit` error standing for the raised
exception), and the Beam metrics counters are explicit state threaded
through `ParseLogEntry.process`.
-/

/-- A JSON value as produced by Python's `json.loads`: `null`, booleans,
numbers (modelled as integers; the distinction between int and float plays
no role in the pipeline), strings, arrays and objects.  Objects are
association lists; `json.loads` produces dictionaries with unique keys, so
lookup of the first matching key is faithful. -/
inductive Json where
  | null : Json
  | bool (b : Bool) : Json
  | num (n : Int) : Json
  | str (s : String) : Json
  | arr (elems : List Json) : Json
  | obj (fields : List (String × Json)) : Json

/-- Python's `x.get(key, default)`: succeeds with the stored value (or the
default) when `x` is a dictionary, raises `AttributeError` (modelled as
`Except.error ()`) when `x` is any other value, since only `dict` has a
`get` method. -/
def pyGet (v : Json) (key : String) (dflt : Json) : Except Unit Json :=
  match v with
  | Json.obj fields => Except.ok ((fields.lookup key).getD dflt)
  | _ => Except.error ()

/-- The dictionary built by `ParseLogEntry.process` and mutated in place by
the later stages.  The ten parser fields are always present (the parser
always writes them), so they are plain `Json` values; `ingestion_time` and
`pipeline_version` are only added by `EnrichLogs.process`, so they are
`Option`s that the parser leaves at `none`. -/
structure LogRecord where
  timestamp : Json
  severity : Json
  message : Json
  resource_type : Json
  project_id : Json
  trace_id : Json
  span_id : Json
  labels : Json
  resource_name : Json
  source_location : Json
  ingestion_time : Option String
  pipeline_version : Option String

/-- The field-extraction block of `ParseLogEntry.process`
(`log_processing_pipeline.py` lines 43-54), evaluated in Python's order.
Each `.get` chain is a sequence of `pyGet`s; any `AttributeError` (a `.get`
on a non-dictionary) aborts the whole block. -/
def extractFields (log_data : Json) : Except Unit LogRecord := do
  let timestamp ← pyGet log_data "timestamp" Json.null
  let severity ← pyGet log_data "severity" (Json.str "INFO")
  let messageFallback ← pyGet log_data "message" (Json.str "")
  let message ← pyGet log_data "textPayload" messageFallback
  let resource1 ← pyGet log_data "resource" (Json.obj [])
  let resource_type ← pyGet resource1 "type" (Json.str "unknown")
  let resource2 ← pyGet log_data "resource" (Json.obj [])
  let labels2 ← pyGet resource2 "labels" (Json.obj [])
  let project_id ← pyGet labels2 "project_id" (Json.str "unknown")
  let trace_id ← pyGet log_data "trace" Json.null
  let span_id ← pyGet log_data "spanId" Json.null
  let labels ← pyGet log_data "labels" (Json.obj [])
  let resource3 ← pyGet log_data "resource" (Json.obj [])
  let labels3 ← pyGet resource3 "labels" (Json.obj [])
  let resource_name ← pyGet labels3 "container_name" (Json.str "")
  let source_location ← pyGet log_data "sourceLocation" (Json.obj [])
  Except.ok
    { timestamp := timestamp
      severity := severity
      message := message
      resource_type := resource_type
      project_id := project_id
      trace_id := trace_id
      span_id := span_id
      labels := labels
      resource_name := resource_name
      source_location := source_location
      ingestion_time := none
      pipeline_version := none }

/-- The two Beam metrics counters owned by `ParseLogEntry`. -/
structure ParseState where
  parse_errors : Nat
  valid_logs : Nat
deriving DecidableEq

/-- The outcome of decoding and deserializing the raw Pub/Sub payload
(`element.decode` plus `json.loads`): either a JSON value, or an exception
(`UnicodeDecodeError` or `json.JSONDecodeError`, both modelled as
`Except.error ()`). -/
abbrev RawParse := Except Unit Json

/-- `ParseLogEntry.process` (lines 34-61): the whole body runs inside
`try/except`.  A deserialization failure or any extraction failure is
caught, increments `parse_errors` and yields nothing; a successful
extraction increments `valid_logs` and yields the single record. -/
def ParseLogEntry.process (input : RawParse) (st : ParseState) :
    List LogRecord × ParseState :=
  match input with
  | Except.error _ =>
      ([], { parse_errors := st.parse_errors + 1, valid_logs := st.valid_logs })
  | Except.ok log_data =>
      match extractFields log_data with
      | Except.error _ =>
          ([], { parse_errors := st.parse_errors + 1, valid_logs := st.valid_logs })
      | Except.ok record =>
          ([record], { parse_errors := st.parse_errors, valid_logs := st.valid_logs + 1 })

/-- The shapes under which the `.get` chains of `extractFields` cannot
raise: the document is an object, its `resource` field (when present) is an
object, and that object's `labels` field (when present) is an object. -/
def wellShaped (v : Json) : Bool :=
  match v with
  | Json.obj fields =>
      match fields.lookup "resource" with
      | none => true
      | some (Json.obj rfields) =>
          match rfields.lookup "labels" with
          | none => true
          | some (Json.obj _) => true
          | some _ => false
      | some _ => false
  | _ => false

/-- Whether a JSON value is an object, i.e. deserializes to a Python
dictionary (the only values with a `get` method). -/
def Json.isObj : Json → Bool
  | Json.obj _ => true
  | _ => false

/-- The fixed truncation marker of `EnrichLogs.process` (line 73). -/
def TRUNCATION_MARKER : String := "...[TRUNCATED]"

/-- Python's `len`: defined for strings (number of code points), lists and
dictionaries; raises `TypeError` on `None`, booleans and numbers. -/
def pyLen : Json → Except Unit Nat
  | Json.str s => Except.ok s.length
  | Json.arr elems => Except.ok elems.length
  | Json.obj fields => Except.ok fields.length
  | _ => Except.error ()

/-- The truncation step of `EnrichLogs.process` (lines 72-73):
`if len(element.get('message', '')) > 1000: element['message'] =
element['message'][:1000] + '...[TRUNCATED]'`.  `len` raises on values
without a length; when the length exceeds 1000, the slice-and-concatenate
succeeds only on strings (slicing a dict, or adding a string to a sliced
list, raises `TypeError`).  String slicing takes the first 1000 code
points. -/
def truncateMessage (m : Json) : Except Unit Json := do
  let n ← pyLen m
  if 1000 < n then
    match m with
    | Json.str s => Except.ok (Json.str (String.mk (s.data.take 1000) ++ TRUNCATION_MARKER))
    | _ => Except.error ()
  else
    Except.ok m

/-- `EnrichLogs.process` (lines 66-75): sets `ingestion_time` to the
current wall-clock instant (passed in as `now`), sets `pipeline_version`
to the constant `'1.0.0'`, and truncates long messages.  There is no
`try/except` here: an exception from the truncation step propagates and no
record is yielded. -/
def EnrichLogs.process (now : String) (e : LogRecord) : Except Unit LogRecord := do
  let m ← truncateMessage e.message
  Except.ok { e with
    message := m
    ingestion_time := some now
    pipeline_version := some "1.0.0" }

/-- The shard assignment of `DetermineShardTable.process` (lines 82-83):
`shard_num = (hash(project_id) % 4) + 1`.  `pyHash` stands for Python's
builtin `hash`, a fixed function for the lifetime of one process (its
concrete values vary across processes via hash randomization, so every
theorem quantifies over it).  Python's `%` with positive modulus returns a
value in `[0, 4)`, exactly `Int.emod`, which is Lean's `%` on `Int`. -/
def shardNum (pyHash : Json → Int) (project_id : Json) : Int :=
  pyHash project_id % 4 + 1

/-- The table-name template of `DetermineShardTable.process` (line 84) and
of the write loop in `run_pipeline` (line 143):
`f"real_time_logs_shard_{shard_num}"`. -/
def shardTableName (n : Int) : String :=
  "real_time_logs_shard_" ++ toString n

/-- `DetermineShardTable.process` (lines 80-86): yields the pair
`(table_name, element)`.  The record always carries its `project_id` key
(the parser wrote it), so `element.get('project_id', '')` is the field
itself. -/
def DetermineShardTable.process (pyHash : Json → Int) (e : LogRecord) :
    String × LogRecord :=
  (shardTableName (shardNum pyHash e.project_id), e)

/-- The shard numbers enumerated by the write loop of `run_pipeline`
(line 142): `for shard_num in range(1, 5)`. -/
def pipelineShards : List Int := [1, 2, 3, 4]

/-- The filter of the shard branch for shard `n` (lines 146-148):
`lambda x, shard=shard_num: x[0] == f"real_time_logs_shard_{shard}"`. -/
def shardFilter (n : Int) (x : String × LogRecord) : Bool :=
  x.1 == shardTableName n

/-- The rows reaching the shard-`n` write stage out of one closed window
whose routed pairs came from `records`: the branch filters the pairs by
table name (lines 146-148) and extracts the row with `lambda x: x[1]`
(line 149). -/
def windowShardBatch (pyHash : Json → Int) (records : List LogRecord) (n : Int) :
    List LogRecord :=
  (((records.map (DetermineShardTable.process pyHash)).filter (shardFilter n)).map Prod.snd)

/-- The append operations issued when a window closes (lines 142-165): one
`WriteToBigQuery` append per shard branch whose filtered batch for the
window is non-empty, carrying that batch to the shard's table; a branch
that received no rows in the window issues no append. -/
def dispatchAppends (pyHash : Json → Int) (records : List LogRecord) :
    List (String × List LogRecord) :=
  pipelineShards.filterMap fun n =>
    let batch := windowShardBatch pyHash records n
    if batch.isEmpty then none else some (shardTableName n, batch)

/-- The command-line arguments declared by `run_pipeline` (lines 110-115):
exactly `--input_subscription`, `--output_dataset` and `--project_id`, all
required.  This is the whole pipeline-owned configuration surface. -/
structure KnownArgs where
  input_subscription : String
  output_dataset : String
  project_id : String
deriving DecidableEq

/-- `parser.parse_known_args(argv)` restricted to the declared arguments:
succeeds when all three required arguments are supplied and ignores any
unrecognized argument (argparse returns those separately and `run_pipeline`
forwards them, untouched, to the Beam runner options). -/
def parseKnownArgs (argv : List (String × String)) : Except String KnownArgs :=
  match argv.lookup "input_subscription",
        argv.lookup "output_dataset",
        argv.lookup "project_id" with
  | some sub, some ds, some proj =>
      Except.ok { input_subscription := sub, output_dataset := ds, project_id := proj }
  | _, _, _ => Except.error "the following arguments are required"

/-- The window duration used by `run_pipeline` as a function of the parsed
configuration: the source hardcodes `FixedWindows(60)` (line 135), so the
value is 60 seconds whatever the configuration. -/
def pipelineWindowDurationSeconds (_args : KnownArgs) : Nat := 60

/-- The shard numbers used by `run_pipeline` as a function of the parsed
configuration: the source hardcodes `range(1, 5)` (line 142) and `% 4`
(line 83), so the shard set is 1..4 whatever the configuration. -/
def pipelineShardNumbers (_args : KnownArgs) : List Int := pipelineShards

/-- The fully qualified BigQuery destination of shard `n` (line 151):
`f"{known_args.project_id}:{known_args.output_dataset}.{table_name}"`. -/
def fullTableSpec (args : KnownArgs) (n : Int) : String :=
  args.project_id ++ ":" ++ args.output_dataset ++ "." ++ shardTableName n

/-- The record the parser produces for an input whose `textPayload` field
is `m` and which carries no other field: every other field is at its
default.  Used to instantiate theorems at concrete records. -/
def sampleRecord (m : Json) : LogRecord where
  timestamp := Json.null
  severity := Json.str "INFO"
  message := m
  resource_type := Json.str "unknown"
  project_id := Json.str "unknown"
  trace_id := Json.null
  span_id := Json.null
  labels := Json.obj []
  resource_name := Json.str ""
  source_location := Json.obj []
  ingestion_time := none
  pipeline_version := none

/-! ## Reduction lemmas for the parser -/

/-- When the document has no `resource` field, the extraction block
succeeds and every `resource`-derived field takes its default. -/
theorem extractFields_eq_noResource (fs : List (String × Json))
    (hres : fs.lookup "resource" = none) :
    extractFields (Json.obj fs) = Except.ok
      { timestamp := (fs.lookup "timestamp").getD Json.null
        severity := (fs.lookup "severity").getD (Json.str "INFO")
        message := (fs.lookup "textPayload").getD ((fs.lookup "message").getD (Json.str ""))
        resource_type := Json.str "unknown"
        project_id := Json.str "unknown"
        trace_id := (fs.lookup "trace").getD Json.null
        span_id := (fs.lookup "spanId").getD Json.null
        labels := (fs.lookup "labels").getD (Json.obj [])
        resource_name := Json.str ""
        source_location := (fs.lookup "sourceLocation").getD (Json.obj [])
        ingestion_time := none
        pipeline_version := none } := by
  simp [extractFields, pyGet, hres, bind, Except.bind]

/-- When `resource` is an object without a `labels` field, extraction
succeeds and the `labels`-derived fields take their defaults. -/
theorem extractFields_eq_noLabels (fs rfs : List (String × Json))
    (hres : fs.lookup "resource" = some (Json.obj rfs))
    (hlab : rfs.lookup "labels" = none) :
    extractFields (Json.obj fs) = Except.ok
      { timestamp := (fs.lookup "timestamp").getD Json.null
        severity := (fs.lookup "severity").getD (Json.str "INFO")
        message := (fs.lookup "textPayload").getD ((fs.lookup "message").getD (Json.str ""))
        resource_type := (rfs.lookup "type").getD (Json.str "unknown")
        project_id := Json.str "unknown"
        trace_id := (fs.lookup "trace").getD Json.null
        span_id := (fs.lookup "spanId").getD Json.null
        labels := (fs.lookup "labels").getD (Json.obj [])
        resource_name := Json.str ""
        source_location := (fs.lookup "sourceLocation").getD (Json.obj [])
        ingestion_time := none
        pipeline_version := none } := by
  simp [extractFields, pyGet, hres, hlab, bind, Except.bind]

/-- When `resource` and `resource.labels` are both objects, extraction
succeeds and every field is a plain dictionary lookup with its default. -/
theorem extractFields_eq_full (fs rfs lfs : List (String × Json))
    (hres : fs.lookup "resource" = some (Json.obj rfs))
    (hlab : rfs.lookup "labels" = some (Json.obj lfs)) :
    extractFields (Json.obj fs) = Except.ok
      { timestamp := (fs.lookup "timestamp").getD Json.null
        severity := (fs.lookup "severity").getD (Json.str "INFO")
        message := (fs.lookup "textPayload").getD ((fs.lookup "message").getD (Json.str ""))
        resource_type := (rfs.lookup "type").getD (Json.str "unknown")
        project_id := (lfs.lookup "project_id").getD (Json.str "unknown")
        trace_id := (fs.lookup "trace").getD Json.null
        span_id := (fs.lookup "spanId").getD Json.null
        labels := (fs.lookup "labels").getD (Json.obj [])
        resource_name := (lfs.lookup "container_name").getD (Json.str "")
        source_location := (fs.lookup "sourceLocation").getD (Json.obj [])
        ingestion_time := none
        pipeline_version := none } := by
  simp [extractFields, pyGet, hres, hlab, bind, Except.bind]

/-- On a non-object document every `.get` chain starts with an
`AttributeError`: extraction raises. -/
theorem extractFields_error_of_not_obj (v : Json) (h : v.isObj = false) :
    extractFields v = Except.error () := by
  cases v <;> simp_all [Json.isObj, extractFields, pyGet, bind, Except.bind]

/-- On an object document that is not well shaped (its `resource`, or that
object's `labels`, holds a non-object), the nested `.get` chains raise
`AttributeError`: extraction fails. -/
theorem extractFields_error_of_not_wellShaped (fs : List (String × Json))
    (h : wellShaped (Json.obj fs) = false) :
    extractFields (Json.obj fs) = Except.error () := by
  match hres : fs.lookup "resource" with
  | none => simp [wellShaped, hres] at h
  | some (Json.obj rfs) =>
      match hlab : rfs.lookup "labels" with
      | none => simp [wellShaped, hres, hlab] at h
      | some (Json.obj lfs) => simp [wellShaped, hres, hlab] at h
      | some Json.null => simp [extractFields, pyGet, hres, hlab, bind, Except.bind]
      | some (Json.bool b) => simp [extractFields, pyGet, hres, hlab, bind, Except.bind]
      | some (Json.num n) => simp [extractFields, pyGet, hres, hlab, bind, Except.bind]
      | some (Json.str s) => simp [extractFields, pyGet, hres, hlab, bind, Except.bind]
      | some (Json.arr elems) => simp [extractFields, pyGet, hres, hlab, bind, Except.bind]
  | some Json.null => simp [extractFields, pyGet, hres, bind, Except.bind]
  | some (Json.bool b) => simp [extractFields, pyGet, hres, bind, Except.bind]
  | some (Json.num n) => simp [extractFields, pyGet, hres, bind, Except.bind]
  | some (Json.str s) => simp [extractFields, pyGet, hres, bind, Except.bind]
  | some (Json.arr elems) => simp [extractFields, pyGet, hres, bind, Except.bind]

/-- A successful extraction makes `ParseLogEntry.process` yield exactly the
extracted record and bump `valid_logs`. -/
theorem ParseLogEntry.process_ok_of_extract (v : Json) (r : LogRecord) (st : ParseState)
    (h : extractFields v = Except.ok r) :
    ParseLogEntry.process (Except.ok v) st =
      ([r], { parse_errors := st.parse_errors, valid_logs := st.valid_logs + 1 }) := by
  simp [ParseLogEntry.process, h]

/-- A failed extraction makes `ParseLogEntry.process` yield nothing and
bump `parse_errors`. -/
theorem ParseLogEntry.process_err_of_extract (v : Json) (st : ParseState)
    (h : extractFields v = Except.error ()) :
    ParseLogEntry.process (Except.ok v) st =
      ([], { parse_errors := st.parse_errors + 1, valid_logs := st.valid_logs }) := by
  simp [ParseLogEntry.process, h]

/-! ## C1: defaulting of absent fields -/

/-- **C1, counterexample.**  The claim quantifies over every input that
parses as a valid JSON object.  The object `{"resource": 5}` is one, and
its `severity` source field is absent, yet `parse` does not succeed: the
chained `.get` on the non-dictionary `resource` value raises, the record is
dropped and counted as a parse error, so no output field equals anything. -/
theorem parse_defaults_counterexample :
    ParseLogEntry.process (Except.ok (Json.obj [("resource", Json.num 5)]))
        { parse_errors := 0, valid_logs := 0 } =
      ([], { parse_errors := 1, valid_logs := 0 }) := rfl

/-- **C1, amended.**  For every input that parses as a valid JSON object
*whose `resource` field, when present, is an object and whose
`resource.labels`, when present, is an object*, parse succeeds (emitting
one record and bumping `valid_logs`) and each output field equals its
documented default when the source field is absent: `severity` defaults to
`"INFO"`, `message` falls back from `textPayload` to `message` to the empty
string, `resource_type` defaults to `"unknown"`, `project_id` (from the
nested `resource.labels` structure) defaults to `"unknown"` whichever level
of nesting is absent, `labels` defaults to the empty mapping, and
`timestamp`, `trace_id`, `span_id` are `null` (Python `None`) when not
present. -/
theorem parse_wellShaped_defaults (fs : List (String × Json)) (st : ParseState)
    (h : wellShaped (Json.obj fs) = true) :
    ∃ r : LogRecord,
      ParseLogEntry.process (Except.ok (Json.obj fs)) st =
          ([r], { parse_errors := st.parse_errors, valid_logs := st.valid_logs + 1 }) ∧
      (fs.lookup "severity" = none → r.severity = Json.str "INFO") ∧
      (fs.lookup "textPayload" = none → fs.lookup "message" = none → r.message = Json.str "") ∧
      (∀ m, fs.lookup "textPayload" = none → fs.lookup "message" = some m → r.message = m) ∧
      (∀ m, fs.lookup "textPayload" = some m → r.message = m) ∧
      (fs.lookup "resource" = none → r.resource_type = Json.str "unknown") ∧
      (∀ rfs, fs.lookup "resource" = some (Json.obj rfs) → rfs.lookup "type" = none →
        r.resource_type = Json.str "unknown") ∧
      (fs.lookup "resource" = none → r.project_id = Json.str "unknown") ∧
      (∀ rfs, fs.lookup "resource" = some (Json.obj rfs) → rfs.lookup "labels" = none →
        r.project_id = Json.str "unknown") ∧
      (∀ rfs lfs, fs.lookup "resource" = some (Json.obj rfs) →
        rfs.lookup "labels" = some (Json.obj lfs) → lfs.lookup "project_id" = none →
        r.project_id = Json.str "unknown") ∧
      (fs.lookup "labels" = none → r.labels = Json.obj []) ∧
      (fs.lookup "timestamp" = none → r.timestamp = Json.null) ∧
      (fs.lookup "trace" = none → r.trace_id = Json.null) ∧
      (fs.lookup "spanId" = none → r.span_id = Json.null) := by
  match hres : fs.lookup "resource" with
  | none =>
      have hr := extractFields_eq_noResource fs hres
      refine ⟨_, ParseLogEntry.process_ok_of_extract _ _ st hr, ?_⟩
      repeat' apply And.intro
      all_goals intros
      all_goals simp_all only [Option.getD_none, Option.getD_some, Option.some.injEq,
        Json.obj.injEq, reduceCtorEq]
  | some (Json.obj rfs) =>
      match hlab : rfs.lookup "labels" with
      | none =>
          have hr := extractFields_eq_noLabels fs rfs hres hlab
          refine ⟨_, ParseLogEntry.process_ok_of_extract _ _ st hr, ?_⟩
          repeat' apply And.intro
          all_goals intros
          all_goals simp_all only [Option.getD_none, Option.getD_some, Option.some.injEq,
            Json.obj.injEq, reduceCtorEq]
      | some (Json.obj lfs) =>
          have hr := extractFields_eq_full fs rfs lfs hres hlab
          refine ⟨_, ParseLogEntry.process_ok_of_extract _ _ st hr, ?_⟩
          repeat' apply And.intro
          all_goals intros
          all_goals simp_all only [Option.getD_none, Option.getD_some, Option.some.injEq,
            Json.obj.injEq, reduceCtorEq]
      | some Json.null => exfalso; simp [wellShaped, hres, hlab] at h
      | some (Json.bool b) => exfalso; simp [wellShaped, hres, hlab] at h
      | some (Json.num n) => exfalso; simp [wellShaped, hres, hlab] at h
      | some (Json.str s) => exfalso; simp [wellShaped, hres, hlab] at h
      | some (Json.arr elems) => exfalso; simp [wellShaped, hres, hlab] at h
  | some Json.null => exfalso; simp [wellShaped, hres] at h
  | some (Json.bool b) => exfalso; simp [wellShaped, hres] at h
  | some (Json.num n) => exfalso; simp [wellShaped, hres] at h
  | some (Json.str s) => exfalso; simp [wellShaped, hres] at h
  | some (Json.arr elems) => exfalso; simp [wellShaped, hres] at h

/-- **C1, witness.**  The amended theorem applied to the empty JSON object
(every optional field absent): parse succeeds and every field takes its
documented default. -/
theorem parse_wellShaped_defaults_witness :
    ∃ r : LogRecord,
      ParseLogEntry.process (Except.ok (Json.obj [])) { parse_errors := 0, valid_logs := 0 } =
          ([r], { parse_errors := 0, valid_logs := 1 }) ∧
      r.severity = Json.str "INFO" ∧ r.message = Json.str "" ∧
      r.resource_type = Json.str "unknown" ∧ r.project_id = Json.str "unknown" ∧
      r.labels = Json.obj [] ∧ r.timestamp = Json.null ∧ r.trace_id = Json.null ∧
      r.span_id = Json.null := by
  obtain ⟨r, h1, h2, h3, h4, h5, h6, h7, h8, h9, h10, h11, h12, h13, h14⟩ :=
    parse_wellShaped_defaults [] { parse_errors := 0, valid_logs := 0 } rfl
  exact ⟨r, h1, h2 rfl, h3 rfl rfl, h6 rfl, h8 rfl, h11 rfl, h12 rfl, h13 rfl, h14 rfl⟩

/-! ## C2: tolerance of unexpected shapes at nested paths -/

/-- **C2, counterexample.**  The input `{"resource": "x"}` is structurally
valid (it deserializes), but extraction does not degrade the `resource`
fields to their defaults: the `.get` on the string raises, the exception is
caught by the surrounding `try/except`, the record is dropped (zero records
emitted) and `parse_errors` is incremented — contradicting "the affected
field degrades to its documented default and the record is still
emitted". -/
theorem parse_shape_tolerance_counterexample :
    ParseLogEntry.process (Except.ok (Json.obj [("resource", Json.str "x")]))
        { parse_errors := 0, valid_logs := 0 } =
      ([], { parse_errors := 1, valid_logs := 0 }) := rfl

/-- **C2, amended.**  Absence of a nested structure degrades to the
documented default (theorem `parse_wellShaped_defaults`), but a *wrong type*
at a nested path does not: for every successfully deserialized object whose
`resource` (or `resource.labels`) field holds a non-object, extraction
raises internally, the record is dropped — zero records emitted — and the
input is counted as a parse error. -/
theorem parse_shape_mismatch_drops (fs : List (String × Json)) (st : ParseState)
    (h : wellShaped (Json.obj fs) = false) :
    ParseLogEntry.process (Except.ok (Json.obj fs)) st =
      ([], { parse_errors := st.parse_errors + 1, valid_logs := st.valid_logs }) :=
  ParseLogEntry.process_err_of_extract _ st
    (extractFields_error_of_not_wellShaped fs h)

/-- **C2, witness.**  The amended theorem applied to `{"resource": 7}`
starting from counters `(2, 5)`. -/
theorem parse_shape_mismatch_drops_witness :
    ParseLogEntry.process (Except.ok (Json.obj [("resource", Json.num 7)]))
        { parse_errors := 2, valid_logs := 5 } =
      ([], { parse_errors := 3, valid_logs := 5 }) :=
  parse_shape_mismatch_drops [("resource", Json.num 7)]
    { parse_errors := 2, valid_logs := 5 } rfl

/-! ## C3: malformed input is dropped and counted -/

/-- **C3.**  For every malformed (non-deserializable) input, `process`
emits zero records, increments `parse_errors` by one and leaves
`valid_logs` unchanged; for every successfully parsed input (one whose
extraction yields a record), `process` emits that record, increments
`valid_logs` and leaves `parse_errors` unchanged. -/
theorem parse_malformed_dropped_counted (st : ParseState) :
    (∀ e : Unit,
      ParseLogEntry.process (Except.error e) st =
        ([], { parse_errors := st.parse_errors + 1, valid_logs := st.valid_logs })) ∧
    (∀ (v : Json) (r : LogRecord), extractFields v = Except.ok r →
      ParseLogEntry.process (Except.ok v) st =
        ([r], { parse_errors := st.parse_errors, valid_logs := st.valid_logs + 1 })) :=
  ⟨fun _ => rfl, fun v r h => ParseLogEntry.process_ok_of_extract v r st h⟩

/-- **C3, witness.**  The raw bytes `b"not json"` fail `json.loads`
(modelled by `Except.error ()`): zero records, `parse_errors` goes from 0
to 1; and the empty object parses successfully: `valid_logs` goes from 0
to 1 with `parse_errors` untouched. -/
theorem parse_malformed_dropped_counted_witness :
    ParseLogEntry.process (Except.error ()) { parse_errors := 0, valid_logs := 0 } =
        ([], { parse_errors := 1, valid_logs := 0 }) ∧
    ParseLogEntry.process (Except.ok (Json.obj [])) { parse_errors := 0, valid_logs := 0 } =
        ([{ timestamp := Json.null, severity := Json.str "INFO", message := Json.str "",
            resource_type := Json.str "unknown", project_id := Json.str "unknown",
            trace_id := Json.null, span_id := Json.null, labels := Json.obj [],
            resource_name := Json.str "", source_location := Json.obj [],
            ingestion_time := none, pipeline_version := none }],
          { parse_errors := 0, valid_logs := 1 }) :=
  ⟨(parse_malformed_dropped_counted { parse_errors := 0, valid_logs := 0 }).1 (),
   (parse_malformed_dropped_counted { parse_errors := 0, valid_logs := 0 }).2
     (Json.obj []) _ rfl⟩

/-! ## C10: valid JSON whose top level is not an object -/

/-- **C10.**  For every input that deserializes to a non-object JSON value
(array, number, string, boolean or null), the very first `.get` raises, the
`try/except` catches it, `process` emits zero records and increments
`parse_errors` — such inputs are handled like malformed input, not parsed
into an all-default record. -/
theorem parse_nonobject_counted_as_error (v : Json) (st : ParseState)
    (h : v.isObj = false) :
    ParseLogEntry.process (Except.ok v) st =
      ([], { parse_errors := st.parse_errors + 1, valid_logs := st.valid_logs }) :=
  ParseLogEntry.process_err_of_extract v st (extractFields_error_of_not_obj v h)

/-- **C10, witness.**  The theorem applied to the JSON array `[]`: dropped
and counted as a parse error. -/
theorem parse_nonobject_counted_as_error_witness :
    ParseLogEntry.process (Except.ok (Json.arr [])) { parse_errors := 0, valid_logs := 0 } =
      ([], { parse_errors := 1, valid_logs := 0 }) :=
  parse_nonobject_counted_as_error (Json.arr []) { parse_errors := 0, valid_logs := 0 } rfl

/-! ## Reduction lemmas for the enricher -/

/-- `EnrichLogs.process` is the record update determined by the outcome of
the truncation step. -/
theorem EnrichLogs.process_eq_of_truncate (now : String) (e : LogRecord) (m : Json)
    (h : truncateMessage e.message = Except.ok m) :
    EnrichLogs.process now e = Except.ok
      { e with message := m, ingestion_time := some now,
               pipeline_version := some "1.0.0" } := by
  simp [EnrichLogs.process, h, bind, Except.bind]

/-- `EnrichLogs.process` raises exactly when the truncation step raises. -/
theorem EnrichLogs.process_err_of_truncate (now : String) (e : LogRecord)
    (h : truncateMessage e.message = Except.error ()) :
    EnrichLogs.process now e = Except.error () := by
  simp [EnrichLogs.process, h, bind, Except.bind]

/-- Truncation of a string message longer than 1000 code points: the first
1000 code points followed by the marker. -/
theorem truncateMessage_str_long (s : String) (h : 1000 < s.length) :
    truncateMessage (Json.str s) =
      Except.ok (Json.str (String.mk (s.data.take 1000) ++ TRUNCATION_MARKER)) := by
  simp [truncateMessage, pyLen, h, bind, Except.bind]

/-- Truncation leaves a string message of at most 1000 code points
unchanged. -/
theorem truncateMessage_str_short (s : String) (h : s.length ≤ 1000) :
    truncateMessage (Json.str s) = Except.ok (Json.str s) := by
  simp [truncateMessage, pyLen, bind, Except.bind, Nat.not_lt.mpr h]

/-! ## C4: the 1000-character truncation rule -/

/-- **C4.**  For every record whose message is a string `s` longer than
1000 characters, enrichment succeeds and yields a message of length exactly
`1000 + length "...[TRUNCATED]"` whose first 1000 characters are the first
1000 characters of `s` and whose remainder is exactly the marker; for a
string message of at most 1000 characters, the message is left
unchanged. -/
theorem enrich_truncation (e : LogRecord) (now s : String)
    (hmsg : e.message = Json.str s) :
    (1000 < s.length →
      ∃ r, EnrichLogs.process now e = Except.ok r ∧
        r.message = Json.str (String.mk (s.data.take 1000) ++ TRUNCATION_MARKER) ∧
        ∀ t, r.message = Json.str t →
          t.length = 1000 + TRUNCATION_MARKER.length ∧
          t.data.take 1000 = s.data.take 1000 ∧
          t.data.drop 1000 = TRUNCATION_MARKER.data) ∧
    (s.length ≤ 1000 →
      ∃ r, EnrichLogs.process now e = Except.ok r ∧ r.message = Json.str s) := by
  constructor
  · intro hlen
    have htr : truncateMessage e.message =
        Except.ok (Json.str (String.mk (s.data.take 1000) ++ TRUNCATION_MARKER)) := by
      rw [hmsg]; exact truncateMessage_str_long s hlen
    refine ⟨_, EnrichLogs.process_eq_of_truncate now e _ htr, rfl, ?_⟩
    intro t ht
    have ht' : String.mk (s.data.take 1000) ++ TRUNCATION_MARKER = t := by
      simpa using ht
    subst ht'
    have hdata : (String.mk (s.data.take 1000) ++ TRUNCATION_MARKER).data =
        s.data.take 1000 ++ TRUNCATION_MARKER.data := String.data_append ..
    have hlen1000 : (s.data.take 1000).length = 1000 := by
      have : s.data.length = s.length := rfl
      simp [List.length_take]
      omega
    refine ⟨?_, ?_, ?_⟩
    · have := String.length_append (String.mk (s.data.take 1000)) TRUNCATION_MARKER
      simp only [this]
      have : (String.mk (s.data.take 1000)).length = (s.data.take 1000).length := rfl
      rw [this, hlen1000]
    · rw [hdata, List.take_append_eq_append_take, hlen1000]
      simp [List.take_of_length_le (Nat.le_of_eq hlen1000)]
    · rw [hdata, List.drop_append_eq_append_drop, hlen1000]
      simp [List.drop_of_length_le (Nat.le_of_eq hlen1000)]
  · intro hlen
    have htr : truncateMessage e.message = Except.ok (Json.str s) := by
      rw [hmsg]; exact truncateMessage_str_short s hlen
    exact ⟨_, EnrichLogs.process_eq_of_truncate now e _ htr, rfl⟩

/-- **C4, witness.**  The theorem applied to a record whose message is
1001 copies of `a`: the enriched message is 1000 copies of `a` followed by
the marker, and a record with the short message `hi` is unchanged. -/
theorem enrich_truncation_witness :
    (∃ r, EnrichLogs.process "t0" (sampleRecord (Json.str (String.mk (List.replicate 1001 'a')))) =
        Except.ok r ∧
      r.message = Json.str (String.mk (List.replicate 1000 'a') ++ TRUNCATION_MARKER)) ∧
    (∃ r, EnrichLogs.process "t0" (sampleRecord (Json.str "hi")) = Except.ok r ∧
      r.message = Json.str "hi") := by
  constructor
  · obtain ⟨hlong, _⟩ := enrich_truncation
      (sampleRecord (Json.str (String.mk (List.replicate 1001 'a')))) "t0"
      (String.mk (List.replicate 1001 'a')) rfl
    have h1001 : (String.mk (List.replicate 1001 'a')).length = 1001 := by
      show (List.replicate 1001 'a').length = 1001
      exact List.length_replicate ..
    obtain ⟨r, hok, hmsg, _⟩ := hlong (by omega)
    have htake : (String.mk (List.replicate 1001 'a')).data.take 1000 =
        List.replicate 1000 'a' := by
      show (List.replicate 1001 'a').take 1000 = _
      rw [List.take_replicate]
      norm_num
    refine ⟨r, hok, ?_⟩
    rw [hmsg, htake]
  · obtain ⟨_, hshort⟩ := enrich_truncation (sampleRecord (Json.str "hi")) "t0" "hi" rfl
    exact hshort (by decide)

/-- Truncation is idempotent on its successful results: truncating an
already-truncated message changes nothing (the first 1000 code points of a
truncated string are exactly the original's first 1000, so re-truncation
reproduces the same string). -/
theorem truncateMessage_idem (m0 m : Json) (h : truncateMessage m0 = Except.ok m) :
    truncateMessage m = Except.ok m := by
  cases m0 with
  | null => simp [truncateMessage, pyLen, bind, Except.bind] at h
  | bool b => simp [truncateMessage, pyLen, bind, Except.bind] at h
  | num n => simp [truncateMessage, pyLen, bind, Except.bind] at h
  | str s =>
      by_cases hl : 1000 < s.length
      · rw [truncateMessage_str_long s hl] at h
        obtain rfl : Json.str (String.mk (s.data.take 1000) ++ TRUNCATION_MARKER) = m := by
          simpa using h
        have hlen1000 : (s.data.take 1000).length = 1000 := by
          have hsd : s.data.length = s.length := rfl
          simp [List.length_take]
          omega
        have hlen' : 1000 < (String.mk (s.data.take 1000) ++ TRUNCATION_MARKER).length := by
          rw [String.length_append]
          have h1 : (String.mk (s.data.take 1000)).length = 1000 := hlen1000
          have h2 : 0 < TRUNCATION_MARKER.length := by decide
          omega
        have htake : (String.mk (s.data.take 1000) ++ TRUNCATION_MARKER).data.take 1000 =
            s.data.take 1000 := by
          rw [String.data_append, List.take_append_eq_append_take, hlen1000]
          simp [List.take_of_length_le (Nat.le_of_eq hlen1000)]
        rw [truncateMessage_str_long _ hlen', htake]
      · rw [truncateMessage_str_short s (Nat.not_lt.mp hl)] at h
        obtain rfl : Json.str s = m := by simpa using h
        exact truncateMessage_str_short s (Nat.not_lt.mp hl)
  | arr elems =>
      by_cases hl : 1000 < elems.length
      · simp [truncateMessage, pyLen, bind, Except.bind, hl] at h
      · have he : truncateMessage (Json.arr elems) = Except.ok (Json.arr elems) := by
          simp [truncateMessage, pyLen, bind, Except.bind, hl]
        rw [he] at h
        obtain rfl : Json.arr elems = m := by simpa using h
        exact he
  | obj fields =>
      by_cases hl : 1000 < fields.length
      · simp [truncateMessage, pyLen, bind, Except.bind, hl] at h
      · have he : truncateMessage (Json.obj fields) = Except.ok (Json.obj fields) := by
          simp [truncateMessage, pyLen, bind, Except.bind, hl]
        rw [he] at h
        obtain rfl : Json.obj fields = m := by simpa using h
        exact he

/-! ## C7: enrichment is idempotent except for the ingestion time -/

/-- **C7.**  Whenever enrichment succeeds, applying it a second time (with
a possibly different wall-clock reading) succeeds and yields the same
`pipeline_version` (the constant `"1.0.0"`) and the same final message —
the same truncation outcome — as the first application. -/
theorem enrich_idempotent_modulo_time (e : LogRecord) (t1 t2 : String) (r1 : LogRecord)
    (h : EnrichLogs.process t1 e = Except.ok r1) :
    ∃ r2, EnrichLogs.process t2 r1 = Except.ok r2 ∧
      r2.pipeline_version = r1.pipeline_version ∧
      r2.message = r1.message := by
  cases htr : truncateMessage e.message with
  | error u =>
      cases u
      rw [EnrichLogs.process_err_of_truncate t1 e htr] at h
      simp at h
  | ok m =>
      rw [EnrichLogs.process_eq_of_truncate t1 e m htr] at h
      obtain rfl : ({ e with message := m, ingestion_time := some t1,
                             pipeline_version := some "1.0.0" } : LogRecord) = r1 := by
        simpa using h
      have hm : truncateMessage m = Except.ok m := truncateMessage_idem e.message m htr
      exact ⟨_, EnrichLogs.process_eq_of_truncate t2 _ m hm, rfl, rfl⟩

/-- **C7, witness.**  A record with message `"hello"` enriched at `"t1"`
and re-enriched at `"t2"`: version and message agree. -/
theorem enrich_idempotent_modulo_time_witness :
    ∃ r2, EnrichLogs.process "t2"
        { sampleRecord (Json.str "hello") with ingestion_time := some "t1",
                                               pipeline_version := some "1.0.0" } = Except.ok r2 ∧
      r2.pipeline_version = some "1.0.0" ∧ r2.message = Json.str "hello" := by
  obtain ⟨r2, h1, h2, h3⟩ := enrich_idempotent_modulo_time
    (sampleRecord (Json.str "hello")) "t1" "t2"
    { sampleRecord (Json.str "hello") with ingestion_time := some "t1",
                                           pipeline_version := some "1.0.0" }
    (by rfl)
  exact ⟨r2, h1, h2, h3⟩

/-! ## C8: totality of enrichment -/

/-- **C8, counterexample.**  The parser accepts `{"textPayload": 5}` —
a valid JSON object — and emits a record whose `message` is the number 5;
`EnrichLogs.process` then raises `TypeError` (`len` of an `int`), so
enrichment is *not* total on the records the parser can produce. -/
theorem enrich_total_counterexample :
    extractFields (Json.obj [("textPayload", Json.num 5)]) =
        Except.ok (sampleRecord (Json.num 5)) ∧
    EnrichLogs.process "t" (sampleRecord (Json.num 5)) = Except.error () :=
  ⟨rfl, rfl⟩

/-- **C8, amended.**  Enrichment is total on every record whose `message`
value is a string — in particular on every record parsed from a document
whose `textPayload`/`message` fields are strings or absent; it fails on
parser-producible records whose message value has no `len` (numbers,
booleans, null). -/
theorem enrich_total_on_string_messages (e : LogRecord) (now s : String)
    (h : e.message = Json.str s) :
    ∃ r, EnrichLogs.process now e = Except.ok r := by
  by_cases hl : 1000 < s.length
  · exact ⟨_, EnrichLogs.process_eq_of_truncate now e _
      (by rw [h]; exact truncateMessage_str_long s hl)⟩
  · exact ⟨_, EnrichLogs.process_eq_of_truncate now e _
      (by rw [h]; exact truncateMessage_str_short s (Nat.not_lt.mp hl))⟩

/-- **C8, witness.**  The amended theorem applied to a record with the
string message `"hi"`. -/
theorem enrich_total_on_string_messages_witness :
    ∃ r, EnrichLogs.process "t" (sampleRecord (Json.str "hi")) = Except.ok r :=
  enrich_total_on_string_messages (sampleRecord (Json.str "hi")) "t" "hi" rfl

/-! ## Reduction lemmas for the shard router and dispatcher -/

/-- `(hash(project_id) % 4) + 1` always lands in `[1, 4]`: Python's `%`
with positive modulus (= `Int.emod`) is non-negative and below the
modulus. -/
theorem shardNum_range (pyHash : Json → Int) (pid : Json) :
    1 ≤ shardNum pyHash pid ∧ shardNum pyHash pid ≤ 4 := by
  unfold shardNum
  have h1 := Int.emod_nonneg (pyHash pid) (by decide : (4 : Int) ≠ 0)
  have h2 := Int.emod_lt_of_pos (pyHash pid) (by decide : (0 : Int) < 4)
  omega

/-- The table-name template is injective on the shard range `1..4`. -/
theorem shardTableName_inj_on_range (n m : Int) (hn1 : 1 ≤ n) (hn4 : n ≤ 4)
    (hm1 : 1 ≤ m) (hm4 : m ≤ 4) (h : shardTableName n = shardTableName m) : n = m := by
  interval_cases n <;> interval_cases m <;> first | rfl | (exact absurd h (by decide))

/-- The shard-branch filter accepts a routed pair exactly when the record's
shard number is that branch's shard. -/
theorem shardFilter_process (pyHash : Json → Int) (e : LogRecord) (n : Int)
    (hn1 : 1 ≤ n) (hn4 : n ≤ 4) :
    shardFilter n (DetermineShardTable.process pyHash e) =
      (shardNum pyHash e.project_id == n) := by
  obtain ⟨h1, h2⟩ := shardNum_range pyHash e.project_id
  by_cases h : shardNum pyHash e.project_id = n
  · simp [shardFilter, DetermineShardTable.process, h]
  · have hneq : shardTableName (shardNum pyHash e.project_id) ≠ shardTableName n :=
      fun hc => h (shardTableName_inj_on_range _ _ h1 h2 hn1 hn4 hc)
    simp [shardFilter, DetermineShardTable.process,
      beq_eq_false_iff_ne.mpr hneq, beq_eq_false_iff_ne.mpr h]

/-- The rows reaching shard `n`'s write stage are exactly the records whose
shard number is `n`: routing on the table-name string coincides with
routing on the shard id. -/
theorem windowShardBatch_eq_filter (pyHash : Json → Int) (records : List LogRecord)
    (n : Int) (hn1 : 1 ≤ n) (hn4 : n ≤ 4) :
    windowShardBatch pyHash records n =
      records.filter (fun e => shardNum pyHash e.project_id == n) := by
  unfold windowShardBatch
  rw [List.filter_map, List.map_map]
  have h1 : Prod.snd ∘ DetermineShardTable.process pyHash = id := rfl
  rw [h1, List.map_id]
  refine List.filter_congr ?_
  intro e _
  exact shardFilter_process pyHash e n hn1 hn4

/-- Filtering a name-keyed `filterMap` over a duplicate-free list of shard
ids by one shard's name: exactly that shard's entry survives when its batch
is non-empty, nothing otherwise. -/
theorem filter_filterMap_name_aux {α : Type} (batch : Int → List α) (name : Int → String)
    (P : Int → Prop) (hinj : ∀ a b, P a → P b → name a = name b → a = b)
    (n : Int) (hn : P n) :
    ∀ ns : List Int, (∀ m ∈ ns, P m) → ns.Nodup →
      ((ns.filterMap fun m =>
          if (batch m).isEmpty then none else some (name m, batch m)).filter
        (fun a => a.1 == name n)) =
      (if n ∈ ns ∧ (batch n).isEmpty = false then [(name n, batch n)] else []) := by
  intro ns
  induction ns with
  | nil => intro _ _; simp
  | cons m ms ih =>
      intro hP hnd
      have hPm : P m := hP m (List.mem_cons_self m ms)
      have hPms : ∀ a ∈ ms, P a := fun a ha => hP a (List.mem_cons_of_mem m ha)
      have hnotm : m ∉ ms := (List.nodup_cons.mp hnd).1
      have hnd' : ms.Nodup := (List.nodup_cons.mp hnd).2
      cases hb : (batch m).isEmpty with
      | true =>
          simp only [List.filterMap_cons, hb, reduceIte]
          rw [ih hPms hnd']
          by_cases hm : m = n
          · subst hm
            have hc : ¬((batch m).isEmpty = false) := by simp [hb]
            rw [if_neg (fun h => hc h.2), if_neg (fun h => hc h.2)]
          · have hnm : ¬n = m := fun h => hm h.symm
            have hiff : (n ∈ m :: ms ∧ (batch n).isEmpty = false) ↔
                (n ∈ ms ∧ (batch n).isEmpty = false) := by
              simp [List.mem_cons, hnm]
            exact (if_congr hiff rfl rfl).symm
      | false =>
          simp only [List.filterMap_cons, hb, Bool.false_eq_true, reduceIte, List.filter_cons]
          rw [ih hPms hnd']
          by_cases hm : m = n
          · subst hm
            rw [if_pos (show (name m == name m) = true from beq_self_eq_true _)]
            rw [if_neg (fun h => hnotm h.1)]
            rw [if_pos ⟨List.mem_cons_self m ms, hb⟩]
          · have hname : name m ≠ name n := fun hc => hm (hinj m n hPm hn hc)
            have hnm : ¬n = m := fun h => hm h.symm
            rw [if_neg (show ¬((name m == name n) = true) by
              simp [beq_eq_false_iff_ne.mpr hname])]
            have hiff : (n ∈ m :: ms ∧ (batch n).isEmpty = false) ↔
                (n ∈ ms ∧ (batch n).isEmpty = false) := by
              simp [List.mem_cons, hnm]
            exact (if_congr hiff rfl rfl).symm

/-- `dispatchAppends` written without the `let`. -/
theorem dispatchAppends_eq_filterMap (pyHash : Json → Int) (records : List LogRecord) :
    dispatchAppends pyHash records =
      pipelineShards.filterMap fun m =>
        if (windowShardBatch pyHash records m).isEmpty then none
        else some (shardTableName m, windowShardBatch pyHash records m) := rfl

/-! ## C5: deterministic shard routing into [1, 4] -/

/-- **C5.**  For the process-wide hash function and any record, the shard
number computed from `project_id` lies in `[1, 4]`, and routing is a pure
function of `project_id`: every record with the same `project_id` is routed
to the same shard table within one run. -/
theorem route_pure_and_in_range (pyHash : Json → Int) (e : LogRecord) :
    1 ≤ shardNum pyHash e.project_id ∧ shardNum pyHash e.project_id ≤ 4 ∧
    ∀ e' : LogRecord, e'.project_id = e.project_id →
      DetermineShardTable.process pyHash e' =
        (shardTableName (shardNum pyHash e.project_id), e') := by
  obtain ⟨h1, h2⟩ := shardNum_range pyHash e.project_id
  refine ⟨h1, h2, ?_⟩
  intro e' he
  unfold DetermineShardTable.process
  rw [he]

/-- **C5, witness.**  A negative hash value still lands in `[1, 4]`, and a
second record with the same `project_id` (but different message) is routed
to the same table. -/
theorem route_pure_and_in_range_witness :
    1 ≤ shardNum (fun _ => -7) (sampleRecord (Json.str "w")).project_id ∧
    shardNum (fun _ => -7) (sampleRecord (Json.str "w")).project_id ≤ 4 ∧
    DetermineShardTable.process (fun _ => -7) (sampleRecord (Json.str "x")) =
      (shardTableName (shardNum (fun _ => -7) (sampleRecord (Json.str "w")).project_id),
        sampleRecord (Json.str "x")) := by
  obtain ⟨h1, h2, h3⟩ := route_pure_and_in_range (fun _ => -7) (sampleRecord (Json.str "w"))
  exact ⟨h1, h2, h3 (sampleRecord (Json.str "x")) rfl⟩

/-! ## C6: one append per populated shard, injective destinations -/

/-- **C6.**  For one closed window's records and each shard id `n` in
`1..4`: (i) the dispatcher issues exactly one append to shard `n`'s
destination when that shard has at least one routed record — carrying
exactly that shard's batch — and zero appends when it has none; (ii) the
batch is all and only the records whose shard number is `n`; (iii) the
shard-to-destination-name mapping is injective over `1..4`; (iv) every
record appears in the batch of exactly the one shard matching its shard
number. -/
theorem dispatch_per_shard (pyHash : Json → Int) (records : List LogRecord) (n : Int)
    (hn1 : 1 ≤ n) (hn4 : n ≤ 4) :
    ((dispatchAppends pyHash records).filter (fun a => a.1 == shardTableName n) =
      if (windowShardBatch pyHash records n).isEmpty = false then
        [(shardTableName n, windowShardBatch pyHash records n)]
      else []) ∧
    windowShardBatch pyHash records n =
      records.filter (fun e => shardNum pyHash e.project_id == n) ∧
    (∀ m, 1 ≤ m → m ≤ 4 → shardTableName m = shardTableName n → m = n) ∧
    (∀ e ∈ records,
      e ∈ windowShardBatch pyHash records (shardNum pyHash e.project_id) ∧
      ∀ m, 1 ≤ m → m ≤ 4 → m ≠ shardNum pyHash e.project_id →
        e ∉ windowShardBatch pyHash records m) := by
  refine ⟨?_, windowShardBatch_eq_filter pyHash records n hn1 hn4, ?_, ?_⟩
  · rw [dispatchAppends_eq_filterMap]
    rw [filter_filterMap_name_aux (windowShardBatch pyHash records) shardTableName
      (fun k => 1 ≤ k ∧ k ≤ 4)
      (fun a b ha hb hab => shardTableName_inj_on_range a b ha.1 ha.2 hb.1 hb.2 hab)
      n ⟨hn1, hn4⟩ pipelineShards (by decide) (by decide)]
    have hmem : n ∈ pipelineShards := by
      simp only [pipelineShards, List.mem_cons, List.not_mem_nil, or_false]
      omega
    exact if_congr (and_iff_right hmem) rfl rfl
  · exact fun m hm1 hm4 hname => shardTableName_inj_on_range m n hm1 hm4 hn1 hn4 hname
  · intro e he
    obtain ⟨hs1, hs2⟩ := shardNum_range pyHash e.project_id
    constructor
    · rw [windowShardBatch_eq_filter pyHash records _ hs1 hs2]
      exact List.mem_filter.mpr ⟨he, beq_self_eq_true _⟩
    · intro m hm1 hm4 hne hmem
      rw [windowShardBatch_eq_filter pyHash records m hm1 hm4] at hmem
      have hbeq := (List.mem_filter.mp hmem).2
      exact hne (beq_iff_eq.mp hbeq).symm

/-- **C6, witness.**  One window with a single record hashed to shard 2
(hash 1, so `1 % 4 + 1 = 2`): exactly one append to
`real_time_logs_shard_2` carrying that record, and zero appends to
`real_time_logs_shard_1`. -/
theorem dispatch_per_shard_witness :
    ((dispatchAppends (fun _ => 1) [sampleRecord (Json.str "a")]).filter
        (fun a => a.1 == shardTableName 2) =
      [(shardTableName 2, [sampleRecord (Json.str "a")])]) ∧
    ((dispatchAppends (fun _ => 1) [sampleRecord (Json.str "a")]).filter
        (fun a => a.1 == shardTableName 1) = []) := by
  constructor
  · obtain ⟨h1, _, _, _⟩ := dispatch_per_shard (fun _ => 1) [sampleRecord (Json.str "a")] 2
      (by decide) (by decide)
    rw [h1]
    rfl
  · obtain ⟨h1, _, _, _⟩ := dispatch_per_shard (fun _ => 1) [sampleRecord (Json.str "a")] 1
      (by decide) (by decide)
    rw [h1]
    rfl

/-! ## C9: configuration surface, window duration, shard count -/

/-- **C9, counterexample.**  `run_pipeline` declares exactly
`--input_subscription`, `--output_dataset` and `--project_id`; supplying
`window_duration=300` and `shard_count=8` at process start yields the same
parsed configuration as not supplying them, while the pipeline still
windows by the hardcoded 60 seconds over the hardcoded shards 1..4 — so
window duration and shard count are not part of the process-start
configuration surface, and there is no configurable default to override. -/
theorem config_surface_counterexample :
    parseKnownArgs [("input_subscription", "sub"), ("output_dataset", "ds"),
        ("project_id", "proj"), ("window_duration", "300"), ("shard_count", "8")] =
      Except.ok { input_subscription := "sub", output_dataset := "ds",
                  project_id := "proj" } ∧
    pipelineWindowDurationSeconds
        { input_subscription := "sub", output_dataset := "ds", project_id := "proj" } = 60 ∧
    pipelineShardNumbers
        { input_subscription := "sub", output_dataset := "ds", project_id := "proj" } =
      [1, 2, 3, 4] ∧
    (60 : Nat) ≠ 300 ∧ ([1, 2, 3, 4] : List Int).length ≠ 8 :=
  ⟨rfl, rfl, rfl, by decide, by decide⟩

/-- **C9, amended.**  The process-start configuration surface consists of
the input source, the output namespace and the owning project (all
required, surfaced unchanged in the parsed configuration); the window
duration (60 seconds) and the shard set (1..4) are hardcoded constants,
identical for every configuration and hence immutable for the process
lifetime — they are not configurable and have no configurable default. -/
theorem window_and_shard_fixed (args args2 : KnownArgs) :
    pipelineWindowDurationSeconds args = 60 ∧
    pipelineShardNumbers args = [1, 2, 3, 4] ∧
    pipelineWindowDurationSeconds args = pipelineWindowDurationSeconds args2 ∧
    pipelineShardNumbers args = pipelineShardNumbers args2 ∧
    (∀ argv r, parseKnownArgs argv = Except.ok r →
      argv.lookup "input_subscription" = some r.input_subscription ∧
      argv.lookup "output_dataset" = some r.output_dataset ∧
      argv.lookup "project_id" = some r.project_id) := by
  refine ⟨rfl, rfl, rfl, rfl, ?_⟩
  intro argv r h
  cases e1 : argv.lookup "input_subscription" with
  | none => simp [parseKnownArgs, e1] at h
  | some sub =>
    cases e2 : argv.lookup "output_dataset" with
    | none => simp [parseKnownArgs, e1, e2] at h
    | some ds =>
      cases e3 : argv.lookup "project_id" with
      | none => simp [parseKnownArgs, e1, e2, e3] at h
      | some proj =>
        simp only [parseKnownArgs, e1, e2, e3] at h
        obtain rfl : ({ input_subscription := sub, output_dataset := ds,
                        project_id := proj } : KnownArgs) = r := by
          simpa using h
        exact ⟨rfl, rfl, rfl⟩

/-- **C9, witness.**  The amended theorem applied to the concrete argument
vector `(s, d, p)`. -/
theorem window_and_shard_fixed_witness :
    pipelineWindowDurationSeconds
        { input_subscription := "s", output_dataset := "d", project_id := "p" } = 60 ∧
    pipelineShardNumbers
        { input_subscription := "s", output_dataset := "d", project_id := "p" } =
      [1, 2, 3, 4] ∧
    [("input_subscription", "s"), ("output_dataset", "d"),
        ("project_id", "p")].lookup "input_subscription" = some "s" := by
  obtain ⟨h1, h2, _, _, h5⟩ := window_and_shard_fixed
    { input_subscription := "s", output_dataset := "d", project_id := "p" }
    { input_subscription := "s", output_dataset := "d", project_id := "p" }
  obtain ⟨ha, _, _⟩ := h5
    [("input_subscription", "s"), ("output_dataset", "d"), ("project_id", "p")]
    { input_subscription := "s", output_dataset := "d", project_id := "p" } rfl
  exact ⟨h1, h2, ha⟩
